import Mathlib

/-!
Verification development for the PeopleCounterUDP plugin
(UDPJsonReceiverComponent, UDPJsonSenderComponent, UPeopleCounterJsonLib).

The embedding models:
* the JSON packet decoder `UPeopleCounterJsonLib::ParsePeopleCountPacket`
  as a function over the result of JSON deserialization (the engine's
  `FJsonSerializer::Deserialize` is external library code: a failed parse,
  or a top level that is not an object, yields no root object);
* the receiver component's lifecycle (`StartReceiver` / `StopReceiver` /
  `CreateSocket` / `DestroySocket`) and its datagram handler
  (`HandlePacket`, which enqueues a game-thread broadcast of the raw
  string) as an explicit state machine driven by an event trace;
* the sender component's `SendJsonString` / `CreateSocket` with the OS
  socket layer abstracted into an environment record (address validity,
  socket-builder success, `SendTo` outcome and reported byte count).

All machine doubles (`double` timestamps, JSON numbers) are modelled as
rationals; numeric field extraction follows the engine's
`FJsonValue::TryGetNumber`, including its conversions (booleans to 1/0,
numeric strings through `FString::IsNumeric` and `FCString::Atod`), its
`int32` range check and its `FMath::RoundHalfFromZero` rounding.
-/

/-- JSON values as deserialized by the engine: null, booleans, numbers,
strings, arrays and objects (an object is its field list; the engine's
`FJsonObject` map is represented by an association list without duplicate
keys, looked up by first match). -/
inductive EJson where
  | jnull
  | jbool (b : Bool)
  | jnum (n : ℚ)
  | jstr (s : String)
  | jarr (elems : List EJson)
  | jobj (fields : List (String × EJson))

/-- Extracts the field list when the value is a JSON object; models the
`Root.IsValid()` plus object-overload check of `Deserialize`. -/
def EJson.asObject : EJson → Option (List (String × EJson))
  | .jobj fs => some fs
  | _ => none

/-- Field lookup in a JSON object (`FJsonObject::TryGetField`). -/
def getField (fs : List (String × EJson)) (name : String) : Option EJson :=
  fs.lookup name

/-- Models `FJsonObject::TryGetStringField`: succeeds exactly when the
field is present and holds a string. -/
def tryGetStringField (fs : List (String × EJson)) (name : String) : Option String :=
  match getField fs name with
  | some (.jstr s) => some s
  | _ => none

/-- Loop of `FCString::IsNumeric` after the optional sign: digit
characters with at most one decimal dot; the empty remainder
accepts. -/
def isNumericBody : List Char → Bool → Bool
  | [], _ => true
  | c :: rest, hasDot =>
      if c = '.' then (if hasDot then false else isNumericBody rest true)
      else if c.isDigit then isNumericBody rest hasDot
      else false

/-- Models `FString::IsNumeric`: false on the empty string, otherwise an
optional leading sign followed by digits with at most one decimal
dot. -/
def isNumericString (s : String) : Bool :=
  match s.data with
  | [] => false
  | c :: rest =>
      if c = '-' ∨ c = '+' then isNumericBody rest false
      else isNumericBody (c :: rest) false

/-- Decimal digit character for a digit value below ten. -/
def digitChar (k : Nat) : Char :=
  match k with
  | 0 => '0' | 1 => '1' | 2 => '2' | 3 => '3' | 4 => '4'
  | 5 => '5' | 6 => '6' | 7 => '7' | 8 => '8' | _ => '9'

/-- Numeric value of a digit character. -/
def charVal (c : Char) : Nat :=
  c.toNat - 48

/-- Value of a most-significant-first digit string. -/
def digitsVal (cs : List Char) : Nat :=
  cs.foldl (fun acc c => 10 * acc + charVal c) 0

/-- Decimal digits of a natural number, most significant first, with
explicit recursion fuel (any fuel above the digit count is exact). -/
def natDigitsAux : Nat → Nat → List Char
  | 0, _ => []
  | fuel + 1, n =>
      if n < 10 then [digitChar n]
      else natDigitsAux fuel (n / 10) ++ [digitChar (n % 10)]

/-- Decimal digits of a natural number, most significant first. -/
def natDigits (n : Nat) : List Char :=
  natDigitsAux (n + 1) n

/-- Left-pads a digit string with zeros up to the given length. -/
def padZeros (k : Nat) (ds : List Char) : List Char :=
  List.replicate (k - ds.length) '0' ++ ds

/-- Unsigned part of the `FCString::Atod` model: leading digits form the
integer part and, after a decimal dot, the following digits form the
fractional part. -/
def atodVal (cs : List Char) : ℚ :=
  let ip := cs.takeWhile Char.isDigit
  let rest := cs.dropWhile Char.isDigit
  let fp :=
    match rest with
    | '.' :: fr => fr.takeWhile Char.isDigit
    | _ => []
  mkRat (digitsVal ip * 10 ^ fp.length + digitsVal fp) (10 ^ fp.length)

/-- Models `FCString::Atod` on the strings accepted by
`isNumericString` (no exponent notation there): optional sign, integer
digits, optional dot and fraction digits. -/
def atodQ (s : String) : ℚ :=
  match s.data with
  | [] => 0
  | c :: cs =>
      if c = '-' then -(atodVal cs)
      else if c = '+' then atodVal cs
      else atodVal (c :: cs)

/-- Models `FJsonValue::TryGetNumber` into a `double`: a number yields
its value, a boolean converts to 1 or 0, a string converts to its
parsed value when `FString::IsNumeric` accepts it; null, arrays and
objects fail. -/
def tryGetNumber : EJson → Option ℚ
  | .jnum n => some n
  | .jbool b => some (if b then 1 else 0)
  | .jstr s => if isNumericString s then some (atodQ s) else none
  | _ => none

/-- Models `FJsonObject::TryGetNumberField` into a `double`: the field
must be present and `TryGetNumber` (with its conversions) must
succeed. -/
def tryGetNumberFieldQ (fs : List (String × EJson)) (name : String) : Option ℚ :=
  match getField fs name with
  | some v => tryGetNumber v
  | none => none

/-- Models `FMath::RoundHalfFromZero` on the exact rational value:
away-from-zero rounding of halves, computed on numerator and
denominator. -/
def roundHalfFromZero (q : ℚ) : Int :=
  if 0 ≤ q.num then (2 * q.num + q.den) / (2 * (q.den : Int))
  else -((2 * (-q.num) + q.den) / (2 * (q.den : Int)))

/-- Models `FJsonObject::TryGetNumberField` into an `int32`: the field
must be present, `TryGetNumber` (with its boolean and numeric-string
conversions) must succeed, the value must fit the `int32` range
(`INT32_MIN = -2147483648` to `INT32_MAX = 2147483647`), and it is
rounded half away from zero. -/
def tryGetNumberFieldInt (fs : List (String × EJson)) (name : String) : Option Int :=
  match getField fs name with
  | some v =>
      match tryGetNumber v with
      | some n =>
          if -(2147483648 : ℚ) ≤ n ∧ n ≤ 2147483647 then some (roundHalfFromZero n) else none
      | none => none
  | none => none

/-- Models `TMap<FString,int32>::Add`: replaces the value of an existing
key in place, otherwise appends the new pair. -/
def mapAdd : List (String × Int) → String → Int → List (String × Int)
  | [], k, v => [(k, v)]
  | (k0, v0) :: rest, k, v =>
      if k0 = k then (k, v) :: rest else (k0, v0) :: mapAdd rest k v

/-- Body of the `for` loop over the `sensors` array in
`ParsePeopleCountPacket`: entries that are not JSON objects are skipped;
`Id` defaults to the empty string and `Count` to `0` when extraction
fails; entries with an empty id are skipped, the rest are added to the
map. -/
def processSensorEntry (m : List (String × Int)) (v : EJson) : List (String × Int) :=
  match v with
  | .jobj fs =>
      let id := (tryGetStringField fs "id").getD ""
      let count := (tryGetNumberFieldInt fs "count").getD 0
      if id = "" then m else mapAdd m id count
  | _ => m

/-- The `sensors` part of `ParsePeopleCountPacket`: the freshly cleared
map is filled only when the `sensors` field is present and is an array;
otherwise it stays empty. -/
def parseSensors (fs : List (String × EJson)) : List (String × Int) :=
  match getField fs "sensors" with
  | some (.jarr elems) => elems.foldl processSensorEntry []
  | _ => []

/-- The `timestamp` part of `ParsePeopleCountPacket`: `OutTimestamp` was
just reset to `0.0` and `TryGetNumberField` overwrites it only on
success. -/
def parseTimestamp (fs : List (String × EJson)) : ℚ :=
  (tryGetNumberFieldQ fs "timestamp").getD 0

/-- The `Schema` local of `ParsePeopleCountPacket`: initialized to the
empty string, overwritten only when the field is present and a string. -/
def localSchema (fs : List (String × EJson)) : String :=
  (tryGetStringField fs "schema").getD ""

/-- The `Type` local of `ParsePeopleCountPacket`, analogous to
`localSchema`. -/
def localType (fs : List (String × EJson)) : String :=
  (tryGetStringField fs "type").getD ""

/-- Return value plus out-parameters of `ParsePeopleCountPacket`. -/
structure ParseResult where
  ok : Bool
  sensors : List (String × Int)
  timestamp : ℚ

/-- Embedding of `UPeopleCounterJsonLib::ParsePeopleCountPacket`.

`root` is the result of `FJsonSerializer::Deserialize` on the input
string: `none` when the string is not valid JSON (or the top level is
not deserializable into an object pointer). `prevSensors` and
`prevTimestamp` are the values held by the out-parameters before the
call; the function clears both before doing anything else, so they never
flow into the result. The function is total: no input raises. -/
def ParsePeopleCountPacket (root : Option EJson)
    (prevSensors : List (String × Int)) (prevTimestamp : ℚ) : ParseResult :=
  match root with
  | none => ⟨false, [], 0⟩
  | some r =>
      match r.asObject with
      | none => ⟨false, [], 0⟩
      | some fs => ⟨true, parseSensors fs, parseTimestamp fs⟩

/-!
Receiver component model.

`UUDPJsonReceiverComponent` owns a listen socket, an `FUdpSocketReceiver`
(the background receive loop) and a `bRunning` flag. Socket and receiver
creation by the engine are abstracted into a success flag; handles are
numbered so that "no second socket is created" is visible in the state.
-/

/-- State of `UUDPJsonReceiverComponent`: the two owned handles, the
running flag, and counters of how many sockets / receiver loops were
ever built (these only grow when the engine builder is actually
invoked). -/
structure RecvState where
  listenSocket : Option Nat
  socketReceiver : Option Nat
  bRunning : Bool
  socketsCreated : Nat
  receiversCreated : Nat

/-- Component state right after construction. -/
def initRecvState : RecvState :=
  ⟨none, none, false, 0, 0⟩

/-- Embedding of `UUDPJsonReceiverComponent::CreateSocket`: returns true
at once when the socket already exists; otherwise asks the engine to
build one (`buildOk` abstracts address validity plus
`FUdpSocketBuilder` success) and keeps the state unchanged on
failure. -/
def RecvCreateSocket (buildOk : Bool) (s : RecvState) : Bool × RecvState :=
  if s.listenSocket.isSome then (true, s)
  else if buildOk then
    (true, { s with listenSocket := some s.socketsCreated,
                    socketsCreated := s.socketsCreated + 1 })
  else (false, s)

/-- Embedding of `UUDPJsonReceiverComponent::DestroySocket`: stops and
deletes the socket receiver (joining its thread), then closes and
destroys the listen socket. -/
def RecvDestroySocket (s : RecvState) : RecvState :=
  { s with socketReceiver := none, listenSocket := none }

/-- Embedding of `UUDPJsonReceiverComponent::StartReceiver`: returns
true immediately when already running; otherwise creates the socket
(failure aborts), then builds and starts the `FUdpSocketReceiver` and
sets `bRunning`. -/
def StartReceiver (buildOk : Bool) (s : RecvState) : Bool × RecvState :=
  if s.bRunning then (true, s)
  else
    match RecvCreateSocket buildOk s with
    | (false, s1) => (false, s1)
    | (true, s1) =>
        (true, { s1 with socketReceiver := some s1.receiversCreated,
                         receiversCreated := s1.receiversCreated + 1,
                         bRunning := true })

/-- Embedding of `UUDPJsonReceiverComponent::StopReceiver`: a no-op when
not running; otherwise clears `bRunning` and destroys receiver and
socket. -/
def StopReceiver (s : RecvState) : RecvState :=
  if !s.bRunning then s
  else RecvDestroySocket { s with bRunning := false }

/-- One inbound UDP datagram. `text` is the payload as decoded from
UTF-8 by `HandlePacket`; `deser` records what `FJsonSerializer` yields
on that text (`none` when the text is not valid JSON deserializable to
an object), so that decode success of a datagram is expressible. -/
structure Dgram where
  text : String
  deser : Option EJson

/-- Whole-system state for the receive path: the component state, the
queue of broadcasts dispatched via `AsyncTask` to the game thread but
not yet executed, and the list of broadcasts already delivered to
`OnJsonReceived` listeners, in order. -/
structure SysState where
  recv : RecvState
  gameQueue : List Dgram
  fired : List Dgram

/-- System state at component construction: stopped, nothing queued,
nothing delivered. -/
def initSys : SysState :=
  ⟨initRecvState, [], []⟩

/-- Embedding of `UUDPJsonReceiverComponent::HandlePacket`: copies the
datagram bytes, converts them to a string and unconditionally dispatches
an `AsyncTask` to the game thread that broadcasts the raw string on
`OnJsonReceived`. No decoding happens here and nothing is dropped. -/
def HandlePacket (d : Dgram) (s : SysState) : SysState :=
  { s with gameQueue := s.gameQueue ++ [d] }

/-- Events driving the receive path: a Start or Stop call, the arrival
of a datagram at the socket receiver thread (which invokes
`HandlePacket` only while the receiver loop is alive), and the game
thread executing one queued `AsyncTask`. -/
inductive REv where
  | start (buildOk : Bool)
  | stop
  | datagram (d : Dgram)
  | drainOne

/-- One step of the receive-path state machine. -/
def stepR (s : SysState) : REv → SysState
  | .start ok => { s with recv := (StartReceiver ok s.recv).2 }
  | .stop => { s with recv := StopReceiver s.recv }
  | .datagram d => if s.recv.bRunning then HandlePacket d s else s
  | .drainOne =>
      match s.gameQueue with
      | [] => s
      | d :: rest => { s with gameQueue := rest, fired := s.fired ++ [d] }

/-- Runs a trace of events from a state. -/
def runR (s : SysState) (es : List REv) : SysState :=
  es.foldl stepR s

/-- Decode success of a datagram, as the spec's receiver-side decode:
`ParsePeopleCountPacket` succeeds on its payload. -/
def decodesAsSnapshot (d : Dgram) : Bool :=
  (ParsePeopleCountPacket d.deser [] 0).ok

/-- Claim C2 as stated by the spec: while the receiver runs, a datagram
whose payload fails to decode is dropped by the receiver and never
reaches the consumer (the arrival leaves the system state unchanged). -/
def ReceiverDropsUndecodable : Prop :=
  ∀ (d : Dgram) (s : SysState), s.recv.bRunning = true →
    decodesAsSnapshot d = false → stepR s (REv.datagram d) = s

/-- Claim C8 as stated by the spec: once a Stop has been executed, no
consumer callback for a datagram received before that Stop ever fires.
The continuation trace is restricted to game-thread activity and further
Stop calls (no restart, no fresh datagrams), so any broadcast it
delivers can only be an in-flight one from before the Stop. -/
def NoCallbackAfterStop : Prop :=
  ∀ (es1 es2 : List REv),
    (∀ e ∈ es2, e = REv.drainOne ∨ e = REv.stop) →
    (runR (runR initSys (es1 ++ [REv.stop])) es2).fired =
      (runR initSys (es1 ++ [REv.stop])).fired

/-!
Sender component model.

`UUDPJsonSenderComponent` owns a send socket and a `bConnected` flag.
The OS socket layer is abstracted into an environment record: whether
`TargetHost` parses as an address, whether `FUdpSocketBuilder` yields a
socket, and the outcome the OS reports for `SendTo` (success flag and
byte count). -/
structure TxEnv where
  addrValid : Bool
  builderOk : Bool
  sendOk : Bool
  bytesSent : Nat

/-- State of `UUDPJsonSenderComponent`. -/
structure SenderState where
  sendSocket : Option Nat
  bConnected : Bool
  socketsCreated : Nat

/-- Sender component state right after construction. -/
def initSenderState : SenderState :=
  ⟨none, false, 0⟩

/-- Embedding of `UUDPJsonSenderComponent::CreateSocket`: returns true
at once when the socket exists; fails without state change when the
target host does not parse or the builder fails; on success stores the
socket and sets `bConnected`. -/
def TxCreateSocket (env : TxEnv) (s : SenderState) : Bool × SenderState :=
  if s.sendSocket.isSome then (true, s)
  else if !env.addrValid then (false, s)
  else if !env.builderOk then (false, s)
  else (true, { s with sendSocket := some s.socketsCreated,
                       socketsCreated := s.socketsCreated + 1,
                       bConnected := true })

/-- Embedding of `UUDPJsonSenderComponent::SendJsonString`: ensures a
socket exists (lazily connecting), re-resolves the target address, then
calls `SendTo` with the UTF-8 payload of length `payloadLen` and
returns the OS success flag `bOK`. The byte count `BytesSent` reported
by the OS is received into a local but never compared against the
payload length. -/
def SendJsonString (env : TxEnv) (payloadLen : Nat) (s : SenderState) : Bool × SenderState :=
  let ensured := if s.sendSocket.isNone then TxCreateSocket env s else (true, s)
  match ensured with
  | (false, s1) => (false, s1)
  | (true, s1) =>
      if !env.addrValid then (false, s1)
      else (env.sendOk, s1)

/-- Claim C3 as stated by the spec: a send that transmits fewer bytes
than the payload length must report failure. -/
def PartialSendFails : Prop :=
  ∀ (env : TxEnv) (payloadLen : Nat) (s : SenderState),
    env.bytesSent < payloadLen → (SendJsonString env payloadLen s).1 = false

/-!
Command protocol model.
-/

/-- Modelled from the spec: a decimal number, mantissa scaled by a
power of ten. Every `float64` value is a dyadic rational and so has an
exact finite decimal expansion; this type carries exactly the values a
`seconds` or `conf` field of the wire format can hold. The value 2.0 is
`⟨20, 1⟩`, the value 0.6 is `⟨6, 1⟩`. -/
structure Dec where
  mantissa : Int
  exp : Nat

/-- Rational value of a decimal number. -/
def Dec.toRat (d : Dec) : ℚ :=
  mkRat d.mantissa (10 ^ d.exp)

/-- Digit string of the absolute mantissa, zero-padded so that both an
integer part and the `exp` fraction digits exist. -/
def decDigits (d : Dec) : List Char :=
  padZeros (d.exp + 1) (natDigits d.mantissa.natAbs)

/-- Integer-part digits of a rendered decimal number. -/
def decIntPart (d : Dec) : List Char :=
  (decDigits d).take ((decDigits d).length - d.exp)

/-- Fraction-part digits of a rendered decimal number (integral values
get the single fraction digit 0, as the spec's example byte sequence
`2.0` shows). -/
def decFracPart (d : Dec) : List Char :=
  if d.exp = 0 then ['0'] else (decDigits d).drop ((decDigits d).length - d.exp)

/-- Renders a decimal number as a JSON number: optional minus sign,
integer digits, one dot, fraction digits. -/
def renderDec (d : Dec) : String :=
  String.mk ((if d.mantissa < 0 then ['-'] else []) ++ decIntPart d ++ '.' :: decFracPart d)

/-- Modelled from the spec: the repository ships no command encoder (the
consuming Blueprint hand-writes JSON strings that `SendJsonString`
transmits), so the `Command` variant set is taken from the spec's data
model section, with the `float64` fields carried as exact decimals. -/
inductive Command where
  | capture
  | setInterval (seconds : Dec)
  | listSensors
  | setConfidence (conf : Dec)
  | toggleDepthInput (enabled : Bool)
  | shutdown

/-- Modelled from the spec: `Encode(command)` serializes the tagged
command variant to a minimal JSON object holding a `cmd` string field
plus the variant-specific fields (`seconds`, `conf`, `enabled`), with
field order and naming fixed as in the wire-contract table. -/
def Encode : Command → String
  | .capture => "\x7b\"cmd\":\"capture\"\x7d"
  | .setInterval seconds =>
      "\x7b\"cmd\":\"set_interval\",\"seconds\":" ++ renderDec seconds ++ "\x7d"
  | .listSensors => "\x7b\"cmd\":\"list_sensors\"\x7d"
  | .setConfidence conf =>
      "\x7b\"cmd\":\"set_conf\",\"conf\":" ++ renderDec conf ++ "\x7d"
  | .toggleDepthInput enabled =>
      "\x7b\"cmd\":\"toggle_depth_input\",\"enabled\":" ++
        (if enabled then "true" else "false") ++ "\x7d"
  | .shutdown => "\x7b\"cmd\":\"shutdown\"\x7d"

/-- Claim C9 as stated: a sensors entry that is an object with a
non-empty string id whose `count` field is missing or is not a JSON
number is inserted with count 0. -/
def CountNotJsonNumberInsertsZero : Prop :=
  ∀ (efs fs : List (String × EJson)) (p : List (String × Int)) (t : ℚ) (sid : String),
    tryGetStringField efs "id" = some sid → sid ≠ "" →
    (∀ q : ℚ, getField efs "count" ≠ some (EJson.jnum q)) →
    getField fs "sensors" = some (EJson.jarr [EJson.jobj efs]) →
    (ParsePeopleCountPacket (some (EJson.jobj fs)) p t).sensors = [(sid, 0)]

/-- The sample `sensors` array of the spec: a normal entry, an entry
with an empty id, an entry that is an object without an id, and a
duplicate of the first id with a different count. -/
def sampleSensorsArray : EJson :=
  EJson.jarr
    [ EJson.jobj [("id", EJson.jstr "A"), ("count", EJson.jnum 3)],
      EJson.jobj [("id", EJson.jstr ""), ("count", EJson.jnum 5)],
      EJson.jobj [("not", EJson.jstr "valid")],
      EJson.jobj [("id", EJson.jstr "A"), ("count", EJson.jnum 9)] ]

/-- Helper: the half-up rounding computed on numerator and denominator
agrees with Mathlib's `round`. -/
theorem halfUp_eq_round (q : ℚ) :
    (2 * q.num + q.den) / (2 * (q.den : Int)) = round q := by
  have hq : q + 1 / 2 = ((2 * q.num + (q.den : Int) : Int) : ℚ) / (((2 * q.den : ℕ)) : ℚ) := by
    conv_lhs => rw [← Rat.num_div_den q]
    have hd : ((q.den : ℚ)) ≠ 0 := Nat.cast_ne_zero.mpr q.den_nz
    push_cast
    field_simp
    ring
  rw [round_eq, hq, Rat.floor_intCast_div_natCast]
  push_cast
  rfl

/-- Sanity check for the rounding model: `roundHalfFromZero` rounds
half away from zero, so it agrees with round-half-up `round` on
nonnegative values and mirrors it on negative values. -/
theorem roundHalfFromZero_eq_round (q : ℚ) :
    roundHalfFromZero q = if 0 ≤ q then round q else -round (-q) := by
  unfold roundHalfFromZero
  rcases le_or_lt 0 q.num with h | h
  · rw [if_pos h, if_pos (Rat.num_nonneg.mp h), halfUp_eq_round]
  · have hq : ¬(0 ≤ q) := fun hc => absurd (Rat.num_nonneg.mpr hc) (not_le.mpr h)
    rw [if_neg (not_le.mpr h), if_neg hq]
    have h3 := halfUp_eq_round (-q)
    rw [Rat.neg_num, Rat.neg_den] at h3
    rw [h3]

/-- Helper: when the `sensors` field is absent or not an array, the
decoded sensor mapping is empty. -/
theorem parseSensors_eq_nil (fs : List (String × EJson))
    (h : ∀ a : List EJson, getField fs "sensors" ≠ some (EJson.jarr a)) :
    parseSensors fs = [] := by
  unfold parseSensors
  cases hg : getField fs "sensors" with
  | none => rfl
  | some j =>
      cases j with
      | jarr a => exact absurd hg (h a)
      | jnull => rfl
      | jbool b => rfl
      | jnum n => rfl
      | jstr s => rfl
      | jobj o => rfl

/-- C1: for every deserialized input object whose `sensors` field is the
sample array, `ParsePeopleCountPacket` succeeds and the output mapping
is exactly the single pair A, 9: the empty-id entry and the non-id
object entry are skipped, and of the two entries with id A the later
count 9 overwrites the earlier count 3 (last-write-wins). -/
theorem parse_last_write_wins (fs : List (String × EJson))
    (p : List (String × Int)) (t : ℚ)
    (h : getField fs "sensors" = some sampleSensorsArray) :
    (ParsePeopleCountPacket (some (EJson.jobj fs)) p t).ok = true ∧
    (ParsePeopleCountPacket (some (EJson.jobj fs)) p t).sensors = [("A", 9)] := by
  refine ⟨rfl, ?_⟩
  show parseSensors fs = [("A", 9)]
  unfold parseSensors
  rw [h]
  decide

/-- Witness for C1 at the concrete packet holding only the sample
`sensors` array. -/
theorem parse_last_write_wins_witness :
    (ParsePeopleCountPacket (some (EJson.jobj [("sensors", sampleSensorsArray)]))
        [("B", 7)] 1).ok = true ∧
    (ParsePeopleCountPacket (some (EJson.jobj [("sensors", sampleSensorsArray)]))
        [("B", 7)] 1).sensors = [("A", 9)] :=
  parse_last_write_wins [("sensors", sampleSensorsArray)] [("B", 7)] 1 rfl

/-- C4: when deserialization fails (the input string is not valid JSON)
or the top level is not a JSON object, `ParsePeopleCountPacket` returns
false; the embedding is a total function, so no input raises. -/
theorem parse_rejects_malformed (p : List (String × Int)) (t : ℚ) :
    (ParsePeopleCountPacket none p t).ok = false ∧
    (∀ j : EJson, j.asObject = none → (ParsePeopleCountPacket (some j) p t).ok = false) := by
  refine ⟨rfl, ?_⟩
  intro j hj
  cases j with
  | jobj fs => exact Option.noConfusion hj
  | jnull => rfl
  | jbool b => rfl
  | jnum n => rfl
  | jstr s => rfl
  | jarr a => rfl

/-- Witness for C4 at unparseable input and at a top-level array. -/
theorem parse_rejects_malformed_witness :
    (ParsePeopleCountPacket none [("B", 1)] 5).ok = false ∧
    (ParsePeopleCountPacket (some (EJson.jarr [])) [("B", 1)] 5).ok = false :=
  ⟨(parse_rejects_malformed [("B", 1)] 5).1,
   (parse_rejects_malformed [("B", 1)] 5).2 (EJson.jarr []) rfl⟩

/-- C5: a deserialized JSON object lacking the `schema`, `type`,
`timestamp` and `sensors` fields (such as the decoded Capture command)
still parses successfully: the call returns true, the sensor mapping is
empty because `sensors` is missing or not an array, the timestamp stays
at its cleared value 0, and the `Schema` and `Type` locals keep their
empty-string defaults. -/
theorem parse_capture_defaults (fs : List (String × EJson))
    (p : List (String × Int)) (t : ℚ)
    (hts : getField fs "timestamp" = none)
    (hsen : ∀ a : List EJson, getField fs "sensors" ≠ some (EJson.jarr a))
    (hsch : getField fs "schema" = none)
    (hty : getField fs "type" = none) :
    (ParsePeopleCountPacket (some (EJson.jobj fs)) p t).ok = true ∧
    (ParsePeopleCountPacket (some (EJson.jobj fs)) p t).sensors = [] ∧
    (ParsePeopleCountPacket (some (EJson.jobj fs)) p t).timestamp = 0 ∧
    localSchema fs = "" ∧
    localType fs = "" := by
  refine ⟨rfl, parseSensors_eq_nil fs hsen, ?_, ?_, ?_⟩
  · show parseTimestamp fs = 0
    unfold parseTimestamp tryGetNumberFieldQ
    rw [hts]
    rfl
  · unfold localSchema tryGetStringField
    rw [hsch]
    rfl
  · unfold localType tryGetStringField
    rw [hty]
    rfl

/-- Witness for C5 at the decoded Capture command object. -/
theorem parse_capture_defaults_witness :
    (ParsePeopleCountPacket (some (EJson.jobj [("cmd", EJson.jstr "capture")]))
        [("B", 7)] 4).ok = true ∧
    (ParsePeopleCountPacket (some (EJson.jobj [("cmd", EJson.jstr "capture")]))
        [("B", 7)] 4).sensors = [] ∧
    (ParsePeopleCountPacket (some (EJson.jobj [("cmd", EJson.jstr "capture")]))
        [("B", 7)] 4).timestamp = 0 ∧
    localSchema [("cmd", EJson.jstr "capture")] = "" ∧
    localType [("cmd", EJson.jstr "capture")] = "" :=
  parse_capture_defaults [("cmd", EJson.jstr "capture")] [("B", 7)] 4 rfl
    (fun a h => Option.noConfusion h) rfl rfl

/-- C9 (counterexample): the claim that an entry whose `count` field is
missing or not a JSON number is inserted with count 0 is refuted by the
boolean conversion in `FJsonValue::TryGetNumber`: for the entry with id
X and a `count` field holding the boolean true — not a JSON number —
the parse inserts X with count 1, not 0. -/
theorem parse_count_claim_counterexample : ¬ CountNotJsonNumberInsertsZero := by
  intro h
  have h2 := h [("id", EJson.jstr "X"), ("count", EJson.jbool true)]
    [("sensors", EJson.jarr [EJson.jobj [("id", EJson.jstr "X"), ("count", EJson.jbool true)]])]
    [] 0 "X" rfl (by decide)
    (fun q hq => EJson.noConfusion (Option.some.inj hq)) rfl
  have h3 : ([("X", (1 : Int))] : List (String × Int)) = [("X", 0)] := h2
  exact absurd h3 (by decide)

/-- C9 (amended): a sensors entry that is a JSON object with a
non-empty string id whose `count` field is missing or fails numeric
extraction — `TryGetNumberField` converts booleans and numeric strings,
so it fails only when the field is absent, holds null, an array, an
object or a non-numeric string, or a number outside the `int32`
range — is not skipped: it is inserted into the mapping with count 0
(the cleared local that `TryGetNumberField` failed to overwrite). -/
theorem parse_count_extraction_fails_inserts_zero (efs fs : List (String × EJson))
    (p : List (String × Int)) (t : ℚ) (sid : String)
    (hid : tryGetStringField efs "id" = some sid)
    (hne : sid ≠ "")
    (hcount : tryGetNumberFieldInt efs "count" = none)
    (hs : getField fs "sensors" = some (EJson.jarr [EJson.jobj efs])) :
    (ParsePeopleCountPacket (some (EJson.jobj fs)) p t).ok = true ∧
    (ParsePeopleCountPacket (some (EJson.jobj fs)) p t).sensors = [(sid, 0)] := by
  refine ⟨rfl, ?_⟩
  show parseSensors fs = [(sid, 0)]
  unfold parseSensors
  rw [hs]
  show processSensorEntry [] (EJson.jobj efs) = [(sid, 0)]
  show (let id := (tryGetStringField efs "id").getD "";
        let count := (tryGetNumberFieldInt efs "count").getD 0;
        if id = "" then [] else mapAdd [] id count) = [(sid, 0)]
  rw [hid, hcount]
  show (if sid = "" then [] else mapAdd [] sid 0) = [(sid, 0)]
  rw [if_neg hne]
  rfl

/-- Witness for C9 (amended) at an entry holding a non-empty id and a
non-numeric-string count. -/
theorem parse_count_extraction_fails_inserts_zero_witness :
    (ParsePeopleCountPacket
        (some (EJson.jobj [("sensors",
          EJson.jarr [EJson.jobj [("id", EJson.jstr "X"), ("count", EJson.jstr "n/a")]])]))
        [] 0).ok = true ∧
    (ParsePeopleCountPacket
        (some (EJson.jobj [("sensors",
          EJson.jarr [EJson.jobj [("id", EJson.jstr "X"), ("count", EJson.jstr "n/a")]])]))
        [] 0).sensors = [("X", 0)] :=
  parse_count_extraction_fails_inserts_zero
    [("id", EJson.jstr "X"), ("count", EJson.jstr "n/a")]
    [("sensors", EJson.jarr [EJson.jobj [("id", EJson.jstr "X"), ("count", EJson.jstr "n/a")]])]
    [] 0 "X" rfl (by decide) rfl rfl

/-- C10: `ParsePeopleCountPacket` clears both out-parameters before
anything else, so its result never depends on their prior values; and
whenever it returns false the sensor mapping is empty and the timestamp
is 0. -/
theorem parse_clears_outputs :
    (∀ (root : Option EJson) (p1 : List (String × Int)) (t1 : ℚ)
        (p2 : List (String × Int)) (t2 : ℚ),
      ParsePeopleCountPacket root p1 t1 = ParsePeopleCountPacket root p2 t2) ∧
    (∀ (root : Option EJson) (p : List (String × Int)) (t : ℚ),
      (ParsePeopleCountPacket root p t).ok = false →
        (ParsePeopleCountPacket root p t).sensors = [] ∧
        (ParsePeopleCountPacket root p t).timestamp = 0) := by
  constructor
  · intro root p1 t1 p2 t2
    rfl
  · intro root p t h
    match root with
    | none => exact ⟨rfl, rfl⟩
    | some (EJson.jobj fs) => exact absurd h (by simp [ParsePeopleCountPacket, EJson.asObject])
    | some EJson.jnull => exact ⟨rfl, rfl⟩
    | some (EJson.jbool b) => exact ⟨rfl, rfl⟩
    | some (EJson.jnum n) => exact ⟨rfl, rfl⟩
    | some (EJson.jstr s) => exact ⟨rfl, rfl⟩
    | some (EJson.jarr a) => exact ⟨rfl, rfl⟩

/-- Witness for C10: different prior out-parameter contents give the
same result, and the failing parse at unparseable input leaves the
cleared outputs. -/
theorem parse_clears_outputs_witness :
    ParsePeopleCountPacket none [("B", 3)] 9 = ParsePeopleCountPacket none [] 0 ∧
    ((ParsePeopleCountPacket none [("B", 3)] 9).sensors = [] ∧
      (ParsePeopleCountPacket none [("B", 3)] 9).timestamp = 0) :=
  ⟨parse_clears_outputs.1 none [("B", 3)] 9 [] 0,
   parse_clears_outputs.2 none [("B", 3)] 9 rfl⟩

/-- C7: Start and Stop are idempotent. `StartReceiver` while already
running returns true and leaves the state untouched (in particular no
second socket and no second receive loop is created, the creation
counters are unchanged), and `StopReceiver` while stopped returns with
the state untouched; consequently a second Start after a successful
Start is such a no-op success, and Stop after Stop changes nothing. -/
theorem start_stop_idempotent :
    (∀ (buildOk : Bool) (s : RecvState), s.bRunning = true →
      StartReceiver buildOk s = (true, s)) ∧
    (∀ s : RecvState, s.bRunning = false → StopReceiver s = s) ∧
    (∀ (buildOk buildOk2 : Bool) (s : RecvState), (StartReceiver buildOk s).1 = true →
      StartReceiver buildOk2 (StartReceiver buildOk s).2 =
        (true, (StartReceiver buildOk s).2)) ∧
    (∀ s : RecvState, StopReceiver (StopReceiver s) = StopReceiver s) := by
  have hstart : ∀ (ok : Bool) (s : RecvState), s.bRunning = true →
      StartReceiver ok s = (true, s) := by
    intro ok s h
    simp [StartReceiver, h]
  have hstop : ∀ s : RecvState, s.bRunning = false → StopReceiver s = s := by
    intro s h
    simp [StopReceiver, h]
  have hrun : ∀ (ok : Bool) (s : RecvState), (StartReceiver ok s).1 = true →
      (StartReceiver ok s).2.bRunning = true := by
    intro ok s h
    cases hb : s.bRunning
    · unfold StartReceiver at h ⊢
      rw [hb] at h ⊢
      simp only [Bool.false_eq_true, if_false] at h ⊢
      revert h
      cases RecvCreateSocket ok s with
      | mk okc s1 =>
          cases okc
          · intro h
            exact Bool.noConfusion h
          · intro h
            rfl
    · simp [StartReceiver, hb]
  have hstopRun : ∀ s : RecvState, (StopReceiver s).bRunning = false := by
    intro s
    cases hb : s.bRunning <;> simp [StopReceiver, RecvDestroySocket, hb]
  exact ⟨hstart, hstop,
    fun ok ok2 s h => hstart ok2 _ (hrun ok s h),
    fun s => hstop _ (hstopRun s)⟩

/-- Witness for C7 at a running state, at the freshly constructed
stopped state, and for the Start-Start and Stop-Stop compositions from
the initial state. -/
theorem start_stop_idempotent_witness :
    StartReceiver false ⟨some 0, some 0, true, 1, 1⟩ = (true, ⟨some 0, some 0, true, 1, 1⟩) ∧
    StopReceiver initRecvState = initRecvState ∧
    StartReceiver false (StartReceiver true initRecvState).2 =
      (true, (StartReceiver true initRecvState).2) ∧
    StopReceiver (StopReceiver initRecvState) = StopReceiver initRecvState :=
  ⟨start_stop_idempotent.1 false ⟨some 0, some 0, true, 1, 1⟩ rfl,
   start_stop_idempotent.2.1 initRecvState rfl,
   start_stop_idempotent.2.2.1 true false initRecvState rfl,
   start_stop_idempotent.2.2.2 initRecvState⟩

/-- C2 (counterexample): the receiver does not drop undecodable
datagrams. With the receiver started, a datagram whose payload is not
valid JSON (deserialization fails, so decode fails) still changes the
state: `HandlePacket` enqueues its broadcast to the game thread, so it
does reach the consumer. -/
theorem receiver_drops_undecodable_counterexample : ¬ ReceiverDropsUndecodable := by
  intro h
  have h2 := h ⟨"not json", none⟩ (runR initSys [REv.start true]) rfl rfl
  have h3 : (1 : Nat) = 0 :=
    congrArg (fun st : SysState => st.gameQueue.length) h2
  exact absurd h3 (by decide)

/-- C2 (amended): while the receiver runs, `HandlePacket` forwards
every inbound datagram to the consumer exactly once — it dispatches one
game-thread broadcast of the raw string per datagram, with no decoding
and no dropping — and the arrival leaves the receiver state (hence the
receive loop) unchanged. -/
theorem receiver_forwards_every_datagram (d : Dgram) (s : SysState)
    (h : s.recv.bRunning = true) :
    stepR s (REv.datagram d) = { s with gameQueue := s.gameQueue ++ [d] } := by
  simp [stepR, HandlePacket, h]

/-- Witness for C2 (amended) at a started receiver and an undecodable
datagram. -/
theorem receiver_forwards_every_datagram_witness :
    stepR (runR initSys [REv.start true]) (REv.datagram ⟨"not json", none⟩) =
      { runR initSys [REv.start true] with gameQueue := [⟨"not json", none⟩] } :=
  receiver_forwards_every_datagram ⟨"not json", none⟩ (runR initSys [REv.start true]) rfl

/-- C8 (counterexample): a callback can fire after Stop has returned.
Start the receiver, let one datagram arrive (its broadcast is queued to
the game thread), then Stop; when the game thread next drains its task
queue — no restart and no new datagram happened — the queued broadcast
fires, growing `fired` from empty to one element. -/
theorem no_callback_after_stop_counterexample : ¬ NoCallbackAfterStop := by
  intro h
  have h2 := h [REv.start true, REv.datagram ⟨"late", none⟩] [REv.drainOne]
    (by
      intro e he
      cases he with
      | head => exact Or.inl rfl
      | tail _ h3 => cases h3)
  have h4 : (1 : Nat) = 0 :=
    congrArg (fun l : List Dgram => l.length) h2
  exact absurd h4 (by decide)

/-- C8 (amended): `StopReceiver` joins and destroys the receive loop,
so while the component is stopped an arriving datagram is ignored (no
handling, no new broadcast); but Stop does not flush the game-thread
task queue: broadcasts already dispatched before the Stop stay queued
(and the delivered list is untouched), so such an in-flight callback
can still fire after Stop returns. -/
theorem stop_ignores_new_but_keeps_queued :
    (∀ (s : SysState) (d : Dgram), s.recv.bRunning = false →
      stepR s (REv.datagram d) = s) ∧
    (∀ s : SysState, (stepR s REv.stop).gameQueue = s.gameQueue ∧
      (stepR s REv.stop).fired = s.fired) := by
  constructor
  · intro s d h
    simp [stepR, h]
  · intro s
    exact ⟨rfl, rfl⟩

/-- Witness for C8 (amended) at the stopped initial state and at a
state with one queued broadcast. -/
theorem stop_ignores_new_but_keeps_queued_witness :
    stepR initSys (REv.datagram ⟨"x", none⟩) = initSys ∧
    ((stepR ⟨initRecvState, [⟨"y", none⟩], []⟩ REv.stop).gameQueue = [⟨"y", none⟩] ∧
      (stepR ⟨initRecvState, [⟨"y", none⟩], []⟩ REv.stop).fired = []) :=
  ⟨stop_ignores_new_but_keeps_queued.1 initSys ⟨"x", none⟩ rfl,
   stop_ignores_new_but_keeps_queued.2 ⟨initRecvState, [⟨"y", none⟩], []⟩⟩

/-- C3 (counterexample): a partial transmission is not treated as
failure. With a fresh sender, a valid target, a working builder and an
OS `SendTo` that reports success but 0 bytes sent for a 10-byte
payload, `SendJsonString` still returns true. -/
theorem partial_send_fails_counterexample : ¬ PartialSendFails := by
  intro h
  have h2 := h ⟨true, true, true, 0⟩ 10 initSenderState (by decide)
  exact absurd h2 (by decide)

/-- C3 (amended): `SendJsonString` returns true exactly when a socket
exists or could be lazily created, the target address re-resolves, and
the OS `SendTo` reports success; the reported byte count (and hence
partial transmission) plays no role in the result. -/
theorem send_result_ignores_bytes_sent (env : TxEnv) (payloadLen : Nat) (s : SenderState) :
    (SendJsonString env payloadLen s).1 = true ↔
      ((s.sendSocket.isSome = true ∨ (env.addrValid = true ∧ env.builderOk = true)) ∧
        env.addrValid = true ∧ env.sendOk = true) := by
  obtain ⟨av, bk, so, bs⟩ := env
  cases hsock : s.sendSocket <;> cases av <;> cases bk <;> cases so <;>
    simp [SendJsonString, TxCreateSocket, hsock]

/-- Witness for C3 (amended) at the counterexample environment: the
result is true although 0 of 10 bytes were transmitted. -/
theorem send_result_ignores_bytes_sent_witness :
    (SendJsonString ⟨true, true, true, 0⟩ 10 initSenderState).1 = true ↔
      ((initSenderState.sendSocket.isSome = true ∨ (True ∧ True)) ∧ True ∧ True) := by
  have h := send_result_ignores_bytes_sent ⟨true, true, true, 0⟩ 10 initSenderState
  simpa using h

theorem digitChar_isDigit (k : Nat) : (digitChar k).isDigit = true := by
  unfold digitChar
  split <;> decide

theorem charVal_digitChar (k : Nat) (hk : k < 10) : charVal (digitChar k) = k := by
  interval_cases k <;> decide

theorem digitsVal_from (cs : List Char) (acc : Nat) :
    cs.foldl (fun a c => 10 * a + charVal c) acc = acc * 10 ^ cs.length + digitsVal cs := by
  induction cs generalizing acc with
  | nil => simp [digitsVal]
  | cons c rest ih =>
      simp only [List.foldl_cons, digitsVal, List.length_cons]
      rw [ih (10 * acc + charVal c), ih (10 * 0 + charVal c)]
      ring

theorem digitsVal_append (a b : List Char) :
    digitsVal (a ++ b) = digitsVal a * 10 ^ b.length + digitsVal b := by
  unfold digitsVal
  rw [List.foldl_append, digitsVal_from]
  rfl

theorem natDigitsAux_all (fuel n : Nat) :
    ∀ c ∈ natDigitsAux fuel n, c.isDigit = true := by
  induction fuel generalizing n with
  | zero => intro c hc; simp [natDigitsAux] at hc
  | succ fuel ih =>
      intro c hc
      unfold natDigitsAux at hc
      by_cases h : n < 10
      · rw [if_pos h] at hc
        simp at hc
        subst hc
        exact digitChar_isDigit n
      · rw [if_neg h] at hc
        rcases List.mem_append.mp hc with h2 | h2
        · exact ih (n / 10) c h2
        · simp at h2
          subst h2
          exact digitChar_isDigit (n % 10)

theorem natDigitsAux_val (fuel n : Nat) (h : n < 10 ^ fuel) :
    digitsVal (natDigitsAux fuel n) = n := by
  induction fuel generalizing n with
  | zero => simp at h; simp [h, natDigitsAux, digitsVal]
  | succ fuel ih =>
      unfold natDigitsAux
      by_cases h2 : n < 10
      · rw [if_pos h2]
        simp [digitsVal, charVal_digitChar n h2]
      · rw [if_neg h2]
        rw [digitsVal_append]
        have hdiv : n / 10 < 10 ^ fuel := by
          rw [Nat.div_lt_iff_lt_mul (by omega)]
          calc n < 10 ^ (fuel + 1) := h
          _ = 10 ^ fuel * 10 := by ring
        rw [ih (n / 10) hdiv]
        simp [digitsVal, charVal_digitChar (n % 10) (Nat.mod_lt n (by omega))]
        omega

theorem natDigitsAux_ne_nil (fuel n : Nat) (h : fuel ≠ 0) : natDigitsAux fuel n ≠ [] := by
  cases fuel with
  | zero => exact absurd rfl h
  | succ fuel =>
      unfold natDigitsAux
      by_cases h2 : n < 10
      · simp [h2]
      · simp [h2]

theorem n_lt_ten_pow (n : Nat) : n < 10 ^ (n + 1) := by
  calc n < 10 ^ n := Nat.lt_pow_self (by omega) n
  _ ≤ 10 ^ (n + 1) := Nat.pow_le_pow_right (by omega) (by omega)

theorem natDigits_val (n : Nat) : digitsVal (natDigits n) = n :=
  natDigitsAux_val (n + 1) n (n_lt_ten_pow n)

theorem natDigits_all (n : Nat) : ∀ c ∈ natDigits n, c.isDigit = true :=
  natDigitsAux_all (n + 1) n

theorem natDigits_ne_nil (n : Nat) : natDigits n ≠ [] :=
  natDigitsAux_ne_nil (n + 1) n (by omega)

theorem digitsVal_replicate_zero (m : Nat) : digitsVal (List.replicate m '0') = 0 := by
  induction m with
  | zero => rfl
  | succ m ih =>
      rw [List.replicate_succ, show ('0' :: List.replicate m '0') = ['0'] ++ List.replicate m '0' from rfl, digitsVal_append, ih]
      simp [digitsVal, charVal]

theorem padZeros_val (k : Nat) (ds : List Char) :
    digitsVal (padZeros k ds) = digitsVal ds := by
  unfold padZeros
  rw [digitsVal_append, digitsVal_replicate_zero]
  simp

theorem padZeros_all (k : Nat) (ds : List Char) (h : ∀ c ∈ ds, c.isDigit = true) :
    ∀ c ∈ padZeros k ds, c.isDigit = true := by
  intro c hc
  unfold padZeros at hc
  rcases List.mem_append.mp hc with h2 | h2
  · rw [List.eq_of_mem_replicate h2]
    decide
  · exact h c h2

theorem padZeros_length (k : Nat) (ds : List Char) : k ≤ (padZeros k ds).length := by
  unfold padZeros
  simp
  omega

theorem isDigit_ne_dot (c : Char) (h : c.isDigit = true) : ¬(c = '.') := by
  intro h2
  subst h2
  exact absurd h (by decide)

theorem isDigit_ne_minus (c : Char) (h : c.isDigit = true) : ¬(c = '-') := by
  intro h2
  subst h2
  exact absurd h (by decide)

theorem isDigit_ne_plus (c : Char) (h : c.isDigit = true) : ¬(c = '+') := by
  intro h2
  subst h2
  exact absurd h (by decide)

theorem takeWhile_digits_append (xs ys : List Char)
    (h : ∀ c ∈ xs, c.isDigit = true) :
    (xs ++ ys).takeWhile Char.isDigit = xs ++ ys.takeWhile Char.isDigit := by
  induction xs with
  | nil => simp
  | cons c rest ih =>
      have hc : c.isDigit = true := h c (by simp)
      simp only [List.cons_append, List.takeWhile_cons, hc, if_true]
      rw [ih (fun d hd => h d (by simp [hd]))]

theorem dropWhile_digits_append (xs ys : List Char)
    (h : ∀ c ∈ xs, c.isDigit = true) :
    (xs ++ ys).dropWhile Char.isDigit = ys.dropWhile Char.isDigit := by
  induction xs with
  | nil => simp
  | cons c rest ih =>
      have hc : c.isDigit = true := h c (by simp)
      simp only [List.cons_append, List.dropWhile_cons, hc, if_true]
      exact ih (fun d hd => h d (by simp [hd]))

theorem takeWhile_digits_all (xs : List Char) (h : ∀ c ∈ xs, c.isDigit = true) :
    xs.takeWhile Char.isDigit = xs := by
  have h2 := takeWhile_digits_append xs [] h
  simpa using h2

theorem isNumericBody_digits_append (xs : List Char) (rest : List Char) (hasDot : Bool)
    (h : ∀ c ∈ xs, c.isDigit = true) :
    isNumericBody (xs ++ rest) hasDot = isNumericBody rest hasDot := by
  induction xs generalizing hasDot with
  | nil => simp
  | cons c cs ih =>
      have hc : c.isDigit = true := h c (by simp)
      rw [List.cons_append]
      simp only [isNumericBody]
      rw [if_neg (isDigit_ne_dot c hc), if_pos hc]
      exact ih hasDot (fun d hd => h d (by simp [hd]))

theorem isNumericBody_digits (xs : List Char) (hasDot : Bool)
    (h : ∀ c ∈ xs, c.isDigit = true) :
    isNumericBody xs hasDot = true := by
  have h2 := isNumericBody_digits_append xs [] hasDot h
  simpa using h2

theorem mkRatDiv (n : Int) (d : Nat) : mkRat n d = (n : ℚ) / (d : ℚ) := by
  rw [Rat.mkRat_eq_divInt, Rat.divInt_eq_div]
  norm_cast

theorem atodVal_digits (ip fp : List Char)
    (hip : ∀ c ∈ ip, c.isDigit = true) (hfp : ∀ c ∈ fp, c.isDigit = true) :
    atodVal (ip ++ '.' :: fp) =
      mkRat (digitsVal ip * 10 ^ fp.length + digitsVal fp) (10 ^ fp.length) := by
  unfold atodVal
  rw [takeWhile_digits_append ip ('.' :: fp) hip,
      dropWhile_digits_append ip ('.' :: fp) hip]
  have hdot : ('.' : Char).isDigit = false := by decide
  simp only [List.takeWhile_cons, List.dropWhile_cons, hdot, if_false, Bool.false_eq_true,
    List.append_nil]
  rw [takeWhile_digits_all fp hfp]

theorem decDigits_all (d : Dec) : ∀ c ∈ decDigits d, c.isDigit = true :=
  padZeros_all _ _ (natDigits_all _)

theorem decDigits_val (d : Dec) : digitsVal (decDigits d) = d.mantissa.natAbs := by
  rw [decDigits, padZeros_val, natDigits_val]

theorem decDigits_len (d : Dec) : d.exp + 1 ≤ (decDigits d).length :=
  padZeros_length _ _

theorem decIntPart_all (d : Dec) : ∀ c ∈ decIntPart d, c.isDigit = true :=
  fun c hc => decDigits_all d c (List.mem_of_mem_take hc)

theorem decFracPart_all (d : Dec) : ∀ c ∈ decFracPart d, c.isDigit = true := by
  intro c hc
  unfold decFracPart at hc
  by_cases he : d.exp = 0
  · rw [if_pos he] at hc
    simp at hc
    subst hc
    decide
  · rw [if_neg he] at hc
    exact decDigits_all d c (List.mem_of_mem_drop hc)

theorem decIntPart_ne_nil (d : Dec) : decIntPart d ≠ [] := by
  have hlen := decDigits_len d
  have h2 : 0 < (decIntPart d).length := by
    simp [decIntPart]
    omega
  exact List.length_pos.mp h2

theorem decSplit (d : Dec) (h : d.exp ≠ 0) :
    decIntPart d ++ decFracPart d = decDigits d := by
  rw [decIntPart, decFracPart, if_neg h, List.take_append_drop]

theorem decFracPart_len (d : Dec) (h : d.exp ≠ 0) :
    (decFracPart d).length = d.exp := by
  have hlen := decDigits_len d
  rw [decFracPart, if_neg h, List.length_drop]
  omega

theorem isNumericString_mk_neg (ip fp : List Char)
    (hip : ∀ c ∈ ip, c.isDigit = true) (hfp : ∀ c ∈ fp, c.isDigit = true) :
    isNumericString (String.mk ('-' :: (ip ++ '.' :: fp))) = true := by
  unfold isNumericString
  show (if ('-' : Char) = '-' ∨ ('-' : Char) = '+' then isNumericBody (ip ++ '.' :: fp) false
        else isNumericBody ('-' :: (ip ++ '.' :: fp)) false) = true
  rw [if_pos (Or.inl rfl), isNumericBody_digits_append ip ('.' :: fp) false hip]
  have h2 : isNumericBody ('.' :: fp) false = isNumericBody fp true := by
    simp [isNumericBody]
  rw [h2]
  exact isNumericBody_digits fp true hfp

theorem isNumericString_mk_pos (ip fp : List Char) (hipne : ip ≠ [])
    (hip : ∀ c ∈ ip, c.isDigit = true) (hfp : ∀ c ∈ fp, c.isDigit = true) :
    isNumericString (String.mk (ip ++ '.' :: fp)) = true := by
  obtain ⟨c, ip2, rfl⟩ := List.exists_cons_of_ne_nil hipne
  have hc : c.isDigit = true := hip c (by simp)
  have hip2 : ∀ x ∈ ip2, x.isDigit = true := fun x hx => hip x (by simp [hx])
  simp only [List.cons_append]
  unfold isNumericString
  show (if c = '-' ∨ c = '+' then isNumericBody (ip2 ++ '.' :: fp) false
        else isNumericBody (c :: (ip2 ++ '.' :: fp)) false) = true
  rw [if_neg (by rintro (h | h); exacts [isDigit_ne_minus c hc h, isDigit_ne_plus c hc h])]
  rw [← List.cons_append, isNumericBody_digits_append (c :: ip2) ('.' :: fp) false
    (fun x hx => by rcases List.mem_cons.mp hx with h | h; exacts [h ▸ hc, hip2 x h])]
  have h2 : isNumericBody ('.' :: fp) false = isNumericBody fp true := by
    simp [isNumericBody]
  rw [h2]
  exact isNumericBody_digits fp true hfp

theorem renderDec_isNumeric (d : Dec) : isNumericString (renderDec d) = true := by
  rw [renderDec]
  by_cases hm : d.mantissa < 0
  · rw [if_pos hm]
    simp only [List.singleton_append]
    exact isNumericString_mk_neg (decIntPart d) (decFracPart d) (decIntPart_all d) (decFracPart_all d)
  · rw [if_neg hm]
    simp only [List.nil_append]
    exact isNumericString_mk_pos (decIntPart d) (decFracPart d) (decIntPart_ne_nil d)
      (decIntPart_all d) (decFracPart_all d)

theorem atodQ_mk_pos (ip fp : List Char) (hipne : ip ≠ [])
    (hip : ∀ c ∈ ip, c.isDigit = true) (hfp : ∀ c ∈ fp, c.isDigit = true) :
    atodQ (String.mk (ip ++ '.' :: fp)) =
      mkRat (digitsVal ip * 10 ^ fp.length + digitsVal fp) (10 ^ fp.length) := by
  obtain ⟨c, ip2, rfl⟩ := List.exists_cons_of_ne_nil hipne
  have hc : c.isDigit = true := hip c (by simp)
  simp only [List.cons_append]
  unfold atodQ
  show (if c = '-' then -(atodVal (ip2 ++ '.' :: fp))
        else if c = '+' then atodVal (ip2 ++ '.' :: fp)
        else atodVal (c :: (ip2 ++ '.' :: fp))) = _
  rw [if_neg (isDigit_ne_minus c hc), if_neg (isDigit_ne_plus c hc), ← List.cons_append]
  exact atodVal_digits (c :: ip2) fp hip hfp

theorem atodQ_mk_neg (ip fp : List Char)
    (hip : ∀ c ∈ ip, c.isDigit = true) (hfp : ∀ c ∈ fp, c.isDigit = true) :
    atodQ (String.mk ('-' :: (ip ++ '.' :: fp))) =
      -(mkRat (digitsVal ip * 10 ^ fp.length + digitsVal fp) (10 ^ fp.length)) := by
  unfold atodQ
  show (if ('-' : Char) = '-' then -(atodVal (ip ++ '.' :: fp))
        else if ('-' : Char) = '+' then atodVal (ip ++ '.' :: fp)
        else atodVal ('-' :: (ip ++ '.' :: fp))) = _
  rw [if_pos rfl, atodVal_digits ip fp hip hfp]

theorem decParts_val (d : Dec) :
    mkRat (digitsVal (decIntPart d) * 10 ^ (decFracPart d).length + digitsVal (decFracPart d))
        (10 ^ (decFracPart d).length) =
      mkRat (d.mantissa.natAbs : Int) (10 ^ d.exp) := by
  by_cases he : d.exp = 0
  · have hip : decIntPart d = decDigits d := by
      simp [decIntPart, he]
    have hfp : decFracPart d = ['0'] := by
      rw [decFracPart, if_pos he]
    have h0 : digitsVal ['0'] = 0 := by decide
    rw [hfp, hip, decDigits_val, he, h0]
    rw [mkRatDiv, mkRatDiv]
    push_cast
    norm_num
  · have hlenfp := decFracPart_len d he
    have hnat : digitsVal (decIntPart d) * 10 ^ (decFracPart d).length + digitsVal (decFracPart d)
        = d.mantissa.natAbs := by
      rw [← digitsVal_append, decSplit d he, decDigits_val]
    have hval : ((digitsVal (decIntPart d) : Int) * 10 ^ (decFracPart d).length +
        (digitsVal (decFracPart d) : Int)) = (d.mantissa.natAbs : Int) := by
      exact_mod_cast congrArg (Nat.cast : Nat → Int) hnat
    rw [hval, hlenfp]

theorem atodQ_renderDec (d : Dec) : atodQ (renderDec d) = d.toRat := by
  rw [renderDec, Dec.toRat]
  by_cases hm : d.mantissa < 0
  · rw [if_pos hm]
    have h1 : atodQ (String.mk (['-'] ++ decIntPart d ++ '.' :: decFracPart d)) =
        -(mkRat (digitsVal (decIntPart d) * 10 ^ (decFracPart d).length +
            digitsVal (decFracPart d)) (10 ^ (decFracPart d).length)) :=
      atodQ_mk_neg (decIntPart d) (decFracPart d) (decIntPart_all d) (decFracPart_all d)
    rw [h1, decParts_val d]
    have habs : (d.mantissa.natAbs : Int) = -d.mantissa := by
      omega
    rw [habs, mkRatDiv, mkRatDiv]
    push_cast
    ring
  · rw [if_neg hm]
    have h1 : atodQ (String.mk ([] ++ decIntPart d ++ '.' :: decFracPart d)) =
        mkRat (digitsVal (decIntPart d) * 10 ^ (decFracPart d).length +
            digitsVal (decFracPart d)) (10 ^ (decFracPart d).length) :=
      atodQ_mk_pos (decIntPart d) (decFracPart d) (decIntPart_ne_nil d)
        (decIntPart_all d) (decFracPart_all d)
    rw [h1, decParts_val d]
    have habs : (d.mantissa.natAbs : Int) = d.mantissa := by
      omega
    rw [habs]

/-- C6: the spec-modelled encoder serializes each command variant to a
minimal JSON object with the fixed `cmd` string field plus its
variant-specific fields: the per-variant byte shape holds for all field
values, every rendered numeric field is a valid decimal numeral (the
`FString::IsNumeric` model accepts it) whose value round-trips exactly
through the `FCString::Atod` model, and SetInterval with seconds 2.0
encodes to exactly the byte sequence of the spec. -/
theorem encode_commands_exact :
    Encode (Command.setInterval ⟨20, 1⟩) = "\x7b\"cmd\":\"set_interval\",\"seconds\":2.0\x7d" ∧
    Encode (Command.setConfidence ⟨6, 1⟩) = "\x7b\"cmd\":\"set_conf\",\"conf\":0.6\x7d" ∧
    Encode Command.capture = "\x7b\"cmd\":\"capture\"\x7d" ∧
    Encode Command.listSensors = "\x7b\"cmd\":\"list_sensors\"\x7d" ∧
    Encode Command.shutdown = "\x7b\"cmd\":\"shutdown\"\x7d" ∧
    (∀ seconds : Dec, Encode (Command.setInterval seconds) =
      "\x7b\"cmd\":\"set_interval\",\"seconds\":" ++ renderDec seconds ++ "\x7d") ∧
    (∀ conf : Dec, Encode (Command.setConfidence conf) =
      "\x7b\"cmd\":\"set_conf\",\"conf\":" ++ renderDec conf ++ "\x7d") ∧
    (∀ enabled : Bool, Encode (Command.toggleDepthInput enabled) =
      "\x7b\"cmd\":\"toggle_depth_input\",\"enabled\":" ++
        (if enabled then "true" else "false") ++ "\x7d") ∧
    (∀ d : Dec, isNumericString (renderDec d) = true ∧ atodQ (renderDec d) = d.toRat) :=
  ⟨rfl, rfl, rfl, rfl, rfl, fun seconds => rfl, fun conf => rfl, fun enabled => rfl,
   fun d => ⟨renderDec_isNumeric d, atodQ_renderDec d⟩⟩
